import Mathlib

/-!
Shallow embedding of the soil-data processing pipeline
(`src/processsoildata.py` together with `src/fieldmappings.py`).

Numeric measurement values are modelled as exact rationals (`ℚ`); the
sentinel constants and the Celsius→Fahrenheit fixed points used by the
claims are all exactly representable in binary floating point, so the
rational model agrees with the Python float computation on every value a
claim mentions.  The vectorized pandas operations are embedded row-wise,
which the repository treats as behaviourally equivalent (each vectorized
helper applies one scalar function independently per row).  String
manipulation is carried out on `List Char` so that every definition
reduces by structural recursion.
-/

namespace SoilData

/-- Python `str.strip()` / pandas `.str.strip()`: remove leading and
trailing whitespace. -/
def stripChars (l : List Char) : List Char :=
  ((l.dropWhile Char.isWhitespace).reverse.dropWhile Char.isWhitespace).reverse

/-- Numeral digits to `Nat`, as Python `int` on an all-digit string. -/
def digitsVal (l : List Char) : Nat :=
  l.foldl (fun a c => a * 10 + (c.toNat - 48)) 0

/-- Python `str.zfill(n)` on an unsigned digit string: left-pad with `'0'`
to length `n`. -/
def zfillChars (n : Nat) (l : List Char) : List Char :=
  if l.length < n then List.replicate (n - l.length) '0' ++ l else l

/-- `safe_zfill` from `formatdate_vectorized`: only pad a time string that
is non-empty, not the literal `'nan'`, and purely numeric
(`str.isdigit`). -/
def safe_zfill (t : List Char) : List Char :=
  if t = [] ∨ t = "nan".data ∨ ¬ (t.all Char.isDigit) then t else zfillChars 4 t

/-- A parsed wall-clock timestamp (what `pd.to_datetime` produces from
the `%Y%m%d%H%M` format). -/
structure Timestamp where
  year : Nat
  month : Nat
  day : Nat
  hour : Nat
  minute : Nat
deriving DecidableEq, Repr

/-- Gregorian leap-year rule. -/
def isLeapYear (y : Nat) : Bool :=
  (y % 4 = 0 && y % 100 ≠ 0) || y % 400 = 0

/-- Days in a month of the Gregorian calendar. -/
def daysInMonth (y m : Nat) : Nat :=
  if m = 2 then (if isLeapYear y then 29 else 28)
  else if m = 4 ∨ m = 6 ∨ m = 9 ∨ m = 11 then 30
  else 31

/-- Calendar validity of a parsed timestamp: the criterion under which
`pd.to_datetime(..., format='%Y%m%d%H%M', errors='coerce')` yields a
value rather than `NaT`. -/
def Timestamp.valid (t : Timestamp) : Bool :=
  decide (1 ≤ t.month) && decide (t.month ≤ 12) &&
  decide (1 ≤ t.day) && decide (t.day ≤ daysInMonth t.year t.month) &&
  decide (t.hour ≤ 23) && decide (t.minute ≤ 59)

/-- `pd.to_datetime(s, format='%Y%m%d%H%M', errors='coerce')`: a strict
twelve-digit parse; any failure (wrong length, non-digit, invalid
calendar date such as month 13) yields `none` (`NaT`), never an
exception. -/
def parseYYYYMMDDHHMM (l : List Char) : Option Timestamp :=
  if l.length = 12 ∧ l.all Char.isDigit then
    let t : Timestamp :=
      { year := digitsVal (l.take 4)
        month := digitsVal ((l.drop 4).take 2)
        day := digitsVal ((l.drop 6).take 2)
        hour := digitsVal ((l.drop 8).take 2)
        minute := digitsVal (l.drop 10) }
    if t.valid then some t else none
  else none

/-- `formatdate_vectorized` (row-wise): strip both fields, pad the time
via `safe_zfill`, blank out pairs whose stripped date or time is empty or
the literal `'nan'` (the `invalid_mask`), then parse the concatenation as
`%Y%m%d%H%M`. -/
def formatdate (date time : String) : Option Timestamp :=
  let d := stripChars date.data
  let t := safe_zfill (stripChars time.data)
  if d = [] ∨ d = "nan".data ∨ t = [] ∨ t = "nan".data then none
  else parseYYYYMMDDHHMM (d ++ t)

/-- A raw cell as read from the fixed-width file: either a numeric value
or an arbitrary text value (the `object`-typed columns of
`fieldmappings.col_types` may carry either). -/
inductive RawValue where
  | num (q : ℚ)
  | text (s : String)
deriving DecidableEq

/-- Split a character list on a separator character, as Python
`str.split(sep)` restricted to a one-character separator. -/
def splitOnChar (c : Char) : List Char → List (List Char)
  | [] => [[]]
  | x :: xs =>
    match splitOnChar c xs with
    | [] => [[]]
    | h :: t => if x = c then [] :: h :: t else (x :: h) :: t

/-- Apply an optional leading minus sign to a digit value. -/
def applySign (neg : Bool) (n : Nat) : Int :=
  if neg then -(n : Int) else (n : Int)

/-- Decimal-literal parse backing `pd.to_numeric(..., errors='coerce')`
on a string cell: optional sign, digits, optional fractional part; the
value of `±d₁…dₖ.f₁…fₘ` is `±(d₁…dₖf₁…fₘ) / 10^m`. -/
def parseDecimal (s : String) : Option ℚ :=
  let l := stripChars s.data
  let neg : Bool := l.take 1 = ['-']
  let body := if l.take 1 = ['-'] ∨ l.take 1 = ['+'] then l.drop 1 else l
  match splitOnChar '.' body with
  | [ip] =>
      if ip ≠ [] ∧ ip.all Char.isDigit then
        some (mkRat (applySign neg (digitsVal ip)) 1)
      else none
  | [ip, fp] =>
      if (ip ≠ [] ∨ fp ≠ []) ∧ ip.all Char.isDigit ∧ fp.all Char.isDigit then
        some (mkRat (applySign neg (digitsVal (ip ++ fp))) (10 ^ fp.length))
      else none
  | _ => none

/-- `pd.to_numeric(series, errors='coerce')` on one cell: numbers pass
through, strings are parsed, failures become missing. -/
def to_numeric : RawValue → Option ℚ
  | .num q => some q
  | .text s => parseDecimal s

/-- The sentinel list `invalid_values = [-99.000, -9999.0, -9999]` of
`remove_invalid_values_vectorized`; `-9999.0` and `-9999` coincide as
exact numbers. -/
def invalid_values : List ℚ := [-99, -9999, -9999]

/-- `remove_invalid_values_vectorized` (row-wise): coerce to numeric
(failures become missing), then replace sentinel values with missing. -/
def remove_invalid_values (v : RawValue) : Option ℚ :=
  match to_numeric v with
  | none => none
  | some q => if q ∈ invalid_values then none else some q

/-- `celsius_to_fahrenheit_vectorized` (row-wise): `C * 9/5 + 32`. -/
def celsius_to_fahrenheit (c : ℚ) : ℚ := c * 9 / 5 + 32

/-- The columns of one decoded fixed-width record that the pipeline
reads (timestamp source fields plus the measurement columns that are
normalized and persisted). -/
structure RawRecord where
  UTC_DATE : String
  UTC_TIME : String
  LST_DATE : String
  LST_TIME : String
  SOIL_TEMP_5 : RawValue
  SOIL_TEMP_10 : RawValue
  SOIL_TEMP_20 : RawValue
  SOIL_TEMP_50 : RawValue
  SOIL_TEMP_100 : RawValue
  T_CALC : RawValue
  T_HR_AVG : RawValue
  P_CALC : RawValue
  RH_HR_AVG : RawValue
deriving DecidableEq

/-- One row surviving `process_dataframe_optimized`: both derived
timestamps plus the normalized measurement columns (missing = `none`,
matching the final `replace({np.nan: None})`). -/
structure NormalizedRecord where
  UTC_DATETIME : Timestamp
  LOCAL_DATETIME : Timestamp
  SOIL_TEMP_5 : Option ℚ
  SOIL_TEMP_10 : Option ℚ
  SOIL_TEMP_20 : Option ℚ
  SOIL_TEMP_50 : Option ℚ
  SOIL_TEMP_100 : Option ℚ
  T_CALC : Option ℚ
  T_HR_AVG : Option ℚ
  P_CALC : Option ℚ
  RH_HR_AVG : Option ℚ
deriving DecidableEq

/-- `process_dataframe_optimized` restricted to one row: derive both
timestamps; a `NaT` in either drops the row (the `dropna` on the two
datetime columns); temperature columns get sentinel removal then
conversion, `P_CALC` and `RH_HR_AVG` sentinel removal only. -/
def process_row (r : RawRecord) : Option NormalizedRecord :=
  match formatdate r.UTC_DATE r.UTC_TIME, formatdate r.LST_DATE r.LST_TIME with
  | some u, some l =>
      some
        { UTC_DATETIME := u
          LOCAL_DATETIME := l
          SOIL_TEMP_5 := (remove_invalid_values r.SOIL_TEMP_5).map celsius_to_fahrenheit
          SOIL_TEMP_10 := (remove_invalid_values r.SOIL_TEMP_10).map celsius_to_fahrenheit
          SOIL_TEMP_20 := (remove_invalid_values r.SOIL_TEMP_20).map celsius_to_fahrenheit
          SOIL_TEMP_50 := (remove_invalid_values r.SOIL_TEMP_50).map celsius_to_fahrenheit
          SOIL_TEMP_100 := (remove_invalid_values r.SOIL_TEMP_100).map celsius_to_fahrenheit
          T_CALC := (remove_invalid_values r.T_CALC).map celsius_to_fahrenheit
          T_HR_AVG := (remove_invalid_values r.T_HR_AVG).map celsius_to_fahrenheit
          P_CALC := remove_invalid_values r.P_CALC
          RH_HR_AVG := remove_invalid_values r.RH_HR_AVG }
  | _, _ => none

/-- `process_dataframe_optimized` over the whole dataframe, row-wise. -/
def process_dataframe (df : List RawRecord) : List NormalizedRecord :=
  df.filterMap process_row

/-- The tuple of one `INSERT` value row in `bulk_insert_optimized`.  The
SQL column list is `(time, SOIL_TEMP_5, …, RH_HR_AVG)` and the paired
`data_columns` list is `["LOCAL_DATETIME", "SOIL_TEMP_5", …,
"RH_HR_AVG"]`, so the `time` primary-key column receives the row's
`LOCAL_DATETIME`; the `UTC_DATETIME` index of the dataframe is not among
`data_columns` and is not persisted. -/
structure SinkRow where
  time : Timestamp
  SOIL_TEMP_5 : Option ℚ
  SOIL_TEMP_10 : Option ℚ
  SOIL_TEMP_20 : Option ℚ
  SOIL_TEMP_50 : Option ℚ
  SOIL_TEMP_100 : Option ℚ
  T_CALC : Option ℚ
  T_HR_AVG : Option ℚ
  P_CALC : Option ℚ
  RH_HR_AVG : Option ℚ
deriving DecidableEq

/-- Build the insert tuple for one normalized record, following the
`data_columns` order of `bulk_insert_optimized`. -/
def to_sink_tuple (n : NormalizedRecord) : SinkRow :=
  { time := n.LOCAL_DATETIME
    SOIL_TEMP_5 := n.SOIL_TEMP_5
    SOIL_TEMP_10 := n.SOIL_TEMP_10
    SOIL_TEMP_20 := n.SOIL_TEMP_20
    SOIL_TEMP_50 := n.SOIL_TEMP_50
    SOIL_TEMP_100 := n.SOIL_TEMP_100
    T_CALC := n.T_CALC
    T_HR_AVG := n.T_HR_AVG
    P_CALC := n.P_CALC
    RH_HR_AVG := n.RH_HR_AVG }

/-- The `soildata` table: rows in insertion order, with `time` as the
primary key. -/
abbrev Sink := List SinkRow

/-- The primary-key column of the sink. -/
def sinkKeys (s : Sink) : List Timestamp := s.map (·.time)

/-- One value row of `INSERT … ON CONFLICT (time) DO NOTHING`: a
duplicate key is silently skipped (never an error, never an overwrite). -/
def insertRow (s : Sink) (r : SinkRow) : Sink :=
  if r.time ∈ sinkKeys s then s else s ++ [r]

/-- The effect of one successfully committed `execute_values` batch. -/
def applyBatch (s : Sink) (b : List SinkRow) : Sink := b.foldl insertRow s

/-- `range(0, len(data_tuples), batch_size)` slicing: split the tuple
list into consecutive batches (`batch_size` is always positive in the
program, `1000`; a zero argument is clamped to 1 to keep the function
total). -/
def chunks (bs : Nat) : List α → List (List α)
  | [] => []
  | x :: xs => (x :: xs).take (max bs 1) :: chunks bs ((x :: xs).drop (max bs 1))
termination_by l => l.length
decreasing_by
  simp only [List.length_drop, List.length_cons]
  omega

/-- One structured-log line of the batch loop: `batch_number` and
`batch_size` as logged in both the success and the error branch, and
whether the batch committed (`ok`) or was rolled back. -/
structure LogEntry where
  batch_number : Nat
  batch_size : Nat
  ok : Bool
deriving DecidableEq, Repr

/-- The batch loop of `bulk_insert_optimized`.  `oracle i` models the
outcome of the sink write for the batch at global index `i` (the
`execute_values`/`commit` call on the external database): on success the
batch is committed immediately; on failure `conn.rollback()` undoes the
whole batch, the error is logged with the batch number and size, and the
loop continues with the next batch. -/
def bulk_insert_batches (oracle : Nat → Bool) : Sink → Nat → List (List SinkRow) → Sink × List LogEntry
  | s, _, [] => (s, [])
  | s, i, b :: rest =>
    if oracle i then
      let out := bulk_insert_batches oracle (applyBatch s b) (i + 1) rest
      (out.1, ⟨i + 1, b.length, true⟩ :: out.2)
    else
      let out := bulk_insert_batches oracle s (i + 1) rest
      (out.1, ⟨i + 1, b.length, false⟩ :: out.2)

/-- `bulk_insert_optimized(df, connection_string, batch_size)`: slice the
prepared tuples into batches and run the batch loop. -/
def bulk_insert (oracle : Nat → Bool) (s : Sink) (rows : List SinkRow) (batch_size : Nat) :
    Sink × List LogEntry :=
  bulk_insert_batches oracle s 0 (chunks batch_size rows)

/-- The per-file loop body of `processdata`, abstracted over the outcome
of reading and processing one file: `Except.error e` models an exception
raised while reading or processing the file (there is no `try`/`except`
around the loop body), `Except.ok n` a file that contributed `n`
normalized records to `total_records`. -/
def processdata_go : List (Except String Nat) → Nat → Except String Nat
  | [], acc => Except.ok acc
  | Except.error e :: _, _ => Except.error e
  | Except.ok n :: rest, acc => processdata_go rest (acc + n)

/-- `processdata`: run the per-file loop over all files found by the
glob; on normal termination the closing log line reports
`total_files_processed = files.length` and
`total_records_inserted = total_records`. -/
def processdata_files (files : List (Except String Nat)) : Except String (Nat × Nat) :=
  (processdata_go files 0).map (fun total => (files.length, total))

/-- The numeric payload of a per-file outcome (`0` for a failed file);
used only to state what the aggregate total equals when every file
succeeds. -/
def okValue : Except String Nat → Nat
  | Except.ok n => n
  | Except.error _ => 0

/-- `processdata` with the sink made explicit: per file, normalize the
dataframe, bulk-insert the tuples, and add the *normalized record count*
`len(df)` to `total_records` — regardless of how many rows the insert
actually added. -/
def processdata_run (oracle : Nat → Bool) (batch_size : Nat) :
    Sink → List (List RawRecord) → Nat → Sink × Nat
  | s, [], total => (s, total)
  | s, df :: rest, total =>
    let nrs := process_dataframe df
    let s' := (bulk_insert oracle s (nrs.map to_sink_tuple) batch_size).1
    processdata_run oracle batch_size s' rest (total + nrs.length)

/-! ### Helper lemmas about the sink and the loader -/

theorem sinkKeys_append (s : Sink) (r : SinkRow) :
    sinkKeys (s ++ [r]) = sinkKeys s ++ [r.time] := by
  simp [sinkKeys]

theorem mem_sinkKeys_insertRow (s : Sink) (r : SinkRow) {k : Timestamp}
    (h : k ∈ sinkKeys s) : k ∈ sinkKeys (insertRow s r) := by
  unfold insertRow
  split
  · exact h
  · rw [sinkKeys_append]
    exact List.mem_append_left _ h

theorem time_mem_sinkKeys_insertRow (s : Sink) (r : SinkRow) :
    r.time ∈ sinkKeys (insertRow s r) := by
  unfold insertRow
  split
  · assumption
  · rw [sinkKeys_append]
    exact List.mem_append_right _ (List.mem_singleton_self _)

theorem insertRow_of_mem {s : Sink} {r : SinkRow} (h : r.time ∈ sinkKeys s) :
    insertRow s r = s := by
  unfold insertRow
  rw [if_pos h]

theorem mem_sinkKeys_applyBatch (s : Sink) (b : List SinkRow) {k : Timestamp}
    (h : k ∈ sinkKeys s) : k ∈ sinkKeys (applyBatch s b) := by
  induction b generalizing s with
  | nil => exact h
  | cons x t ih =>
    simp only [applyBatch, List.foldl_cons] at *
    exact ih (insertRow s x) (mem_sinkKeys_insertRow s x h)

theorem batch_mem_sinkKeys_applyBatch (s : Sink) {b : List SinkRow} {r : SinkRow}
    (h : r ∈ b) : r.time ∈ sinkKeys (applyBatch s b) := by
  induction b generalizing s with
  | nil => cases h
  | cons x t ih =>
    simp only [applyBatch, List.foldl_cons] at *
    rcases List.mem_cons.mp h with rfl | hmem
    · exact mem_sinkKeys_applyBatch (insertRow s r) t (time_mem_sinkKeys_insertRow s r)
    · exact ih (insertRow s x) hmem

theorem applyBatch_eq_of_keys {s : Sink} {b : List SinkRow}
    (h : ∀ r ∈ b, r.time ∈ sinkKeys s) : applyBatch s b = s := by
  induction b generalizing s with
  | nil => rfl
  | cons x t ih =>
    simp only [applyBatch, List.foldl_cons]
    rw [insertRow_of_mem (h x (List.mem_cons_self x t))]
    exact ih (fun r hr => h r (List.mem_cons_of_mem x hr))

theorem applyBatch_applyBatch (s : Sink) (b : List SinkRow) :
    applyBatch (applyBatch s b) b = applyBatch s b :=
  applyBatch_eq_of_keys (fun _ hr => batch_mem_sinkKeys_applyBatch s hr)

theorem nodup_sinkKeys_insertRow {s : Sink} (r : SinkRow)
    (h : (sinkKeys s).Nodup) : (sinkKeys (insertRow s r)).Nodup := by
  unfold insertRow
  split
  · exact h
  · rw [sinkKeys_append, List.nodup_append]
    refine ⟨h, List.nodup_singleton _, ?_⟩
    intro a ha hb
    rw [List.mem_singleton] at hb
    subst hb
    exact absurd ha (by assumption)

theorem nodup_sinkKeys_applyBatch {s : Sink} (b : List SinkRow)
    (h : (sinkKeys s).Nodup) : (sinkKeys (applyBatch s b)).Nodup := by
  induction b generalizing s with
  | nil => exact h
  | cons x t ih =>
    simp only [applyBatch, List.foldl_cons] at *
    exact ih (nodup_sinkKeys_insertRow x h)

theorem length_insertRow (s : Sink) (r : SinkRow) :
    (insertRow s r).length ≤ s.length + 1 := by
  unfold insertRow
  split
  · omega
  · simp

theorem length_applyBatch (s : Sink) (b : List SinkRow) :
    (applyBatch s b).length ≤ s.length + b.length := by
  induction b generalizing s with
  | nil => simp [applyBatch]
  | cons x t ih =>
    simp only [applyBatch, List.foldl_cons, List.length_cons] at *
    have h1 := length_insertRow s x
    have h2 := ih (insertRow s x)
    omega

theorem chunks_flatten (bs : Nat) : ∀ l : List α, (chunks bs l).flatten = l
  | [] => by simp [chunks]
  | x :: xs => by
    rw [chunks, List.flatten_cons, chunks_flatten bs ((x :: xs).drop (max bs 1))]
    exact List.take_append_drop _ _
termination_by l => l.length
decreasing_by
  simp only [List.length_drop, List.length_cons]
  omega

theorem bulk_insert_batches_spec (oracle : Nat → Bool) (batches : List (List SinkRow)) :
    ∀ (s : Sink) (i : Nat),
      (bulk_insert_batches oracle s i batches).2 =
        (List.enumFrom i batches).map (fun p => ⟨p.1 + 1, p.2.length, oracle p.1⟩) ∧
      (bulk_insert_batches oracle s i batches).1 =
        (List.enumFrom i batches).foldl
          (fun t p => if oracle p.1 then applyBatch t p.2 else t) s := by
  induction batches with
  | nil => intro s i; simp [bulk_insert_batches, List.enumFrom]
  | cons b rest ih =>
    intro s i
    by_cases hb : oracle i = true
    · simp only [bulk_insert_batches, hb, if_true, List.enumFrom, List.map_cons,
        List.foldl_cons]
      exact ⟨by rw [(ih _ _).1], by rw [(ih _ _).2]⟩
    · rw [Bool.not_eq_true] at hb
      simp only [bulk_insert_batches, hb, Bool.false_eq_true, if_false, List.enumFrom,
        List.map_cons, List.foldl_cons]
      exact ⟨by rw [(ih _ _).1], by rw [(ih _ _).2]⟩

theorem length_bulk_insert_batches (oracle : Nat → Bool) (batches : List (List SinkRow)) :
    ∀ (s : Sink) (i : Nat),
      (bulk_insert_batches oracle s i batches).1.length ≤
        s.length + (batches.map List.length).sum := by
  induction batches with
  | nil => intro s i; simp [bulk_insert_batches]
  | cons b rest ih =>
    intro s i
    by_cases hb : oracle i = true
    · simp only [bulk_insert_batches, hb, if_true, List.map_cons, List.sum_cons]
      have h1 := length_applyBatch s b
      have h2 := ih (applyBatch s b) (i + 1)
      omega
    · rw [Bool.not_eq_true] at hb
      simp only [bulk_insert_batches, hb, Bool.false_eq_true, if_false, List.map_cons,
        List.sum_cons]
      have h2 := ih s (i + 1)
      omega

theorem length_bulk_insert (oracle : Nat → Bool) (s : Sink) (rows : List SinkRow)
    (bs : Nat) : (bulk_insert oracle s rows bs).1.length ≤ s.length + rows.length := by
  have h := length_bulk_insert_batches oracle (chunks bs rows) s 0
  have hsum : ((chunks bs rows).map List.length).sum = rows.length := by
    rw [← List.length_flatten, chunks_flatten]
  rw [hsum] at h
  exact h

/-! ### Concrete sample data used by witnesses and counterexamples -/

/-- A well-formed raw record whose measurement fields all carry the
`-9999` sentinel (so every normalized measurement is missing). -/
def sample1 : RawRecord :=
  { UTC_DATE := "20220315"
    UTC_TIME := "1430"
    LST_DATE := "20220315"
    LST_TIME := "0930"
    SOIL_TEMP_5 := .num (-9999)
    SOIL_TEMP_10 := .num (-9999)
    SOIL_TEMP_20 := .num (-9999)
    SOIL_TEMP_50 := .num (-9999)
    SOIL_TEMP_100 := .num (-9999)
    T_CALC := .num (-9999)
    T_HR_AVG := .num (-9999)
    P_CALC := .num (-9999)
    RH_HR_AVG := .num (-9999) }

/-- Same UTC timestamp pair as `sample1` but a different local time. -/
def sample2 : RawRecord := { sample1 with LST_TIME := "0945" }

/-- The normalized form of `sample1`. -/
def sample1_norm : NormalizedRecord :=
  ⟨⟨2022, 3, 15, 14, 30⟩, ⟨2022, 3, 15, 9, 30⟩,
    none, none, none, none, none, none, none, none, none⟩

/-- The insert tuple of `sample1`. -/
def row0 : SinkRow := to_sink_tuple sample1_norm

/-- A write oracle under which every batch-level sink write raises. -/
def alwaysFail : Nat → Bool := fun _ => false

end SoilData

namespace SoilData

/-! ### Orchestrator lemmas -/

theorem processdata_go_error (e : String) (post : List (Except String Nat)) :
    ∀ (pre : List (Except String Nat)), (∀ x ∈ pre, ∃ n, x = Except.ok n) →
      ∀ acc, processdata_go (pre ++ Except.error e :: post) acc = Except.error e := by
  intro pre
  induction pre with
  | nil => intro _ acc; rfl
  | cons x t ih =>
    intro h acc
    obtain ⟨n, rfl⟩ := h x (List.mem_cons_self x t)
    simp only [List.cons_append, processdata_go]
    exact ih (fun y hy => h y (List.mem_cons_of_mem _ hy)) _

theorem processdata_go_ok :
    ∀ (files : List (Except String Nat)), (∀ x ∈ files, ∃ n, x = Except.ok n) →
      ∀ acc, processdata_go files acc = Except.ok (acc + (files.map okValue).sum) := by
  intro files
  induction files with
  | nil => intro _ acc; simp [processdata_go]
  | cons x t ih =>
    intro h acc
    obtain ⟨n, rfl⟩ := h x (List.mem_cons_self x t)
    simp only [processdata_go, List.map_cons, List.sum_cons, okValue]
    rw [ih (fun y hy => h y (List.mem_cons_of_mem _ hy)) (acc + n)]
    congr 1
    omega

theorem processdata_run_total (oracle : Nat → Bool) (bs : Nat) :
    ∀ (dfs : List (List RawRecord)) (s : Sink) (t : Nat),
      (processdata_run oracle bs s dfs t).2 =
        t + (dfs.map (fun df => (process_dataframe df).length)).sum := by
  intro dfs
  induction dfs with
  | nil => intro s t; simp [processdata_run]
  | cons df rest ih =>
    intro s t
    simp only [processdata_run, List.map_cons, List.sum_cons]
    rw [ih]
    omega

theorem processdata_run_sink_le (oracle : Nat → Bool) (bs : Nat) :
    ∀ (dfs : List (List RawRecord)) (s : Sink) (t : Nat),
      (processdata_run oracle bs s dfs t).1.length ≤
        s.length + (dfs.map (fun df => (process_dataframe df).length)).sum := by
  intro dfs
  induction dfs with
  | nil => intro s t; simp [processdata_run]
  | cons df rest ih =>
    intro s t
    simp only [processdata_run, List.map_cons, List.sum_cons]
    have h1 := length_bulk_insert oracle s ((process_dataframe df).map to_sink_tuple) bs
    rw [List.length_map] at h1
    have h2 := ih (bulk_insert oracle s ((process_dataframe df).map to_sink_tuple) bs).1 (t + (process_dataframe df).length)
    omega

end SoilData

namespace SoilData

/-! ### Claim theorems -/

/-- C4: timestamp derivation is a pure function of the (date string, time
string) pair: `("20220315","1430")` maps to 2022-03-15T14:30 and
`("20220101","0000")` maps to midnight; a purely numeric non-empty time
is zero-padded to 4 digits; every malformed pair (empty string,
non-numeric, out-of-range calendar date such as month 13) yields the
invalid marker `none` — the embedding is total, so no exception can
abort the file — and such a record is dropped before persistence. -/
theorem C4_timestamp_derivation :
    formatdate "20220315" "1430" = some ⟨2022, 3, 15, 14, 30⟩ ∧
    formatdate "20220101" "0000" = some ⟨2022, 1, 1, 0, 0⟩ ∧
    (∀ t : List Char, t ≠ [] → t.all Char.isDigit = true → safe_zfill t = zfillChars 4 t) ∧
    (∀ d t : String, stripChars d.data = [] ∨ stripChars t.data = [] → formatdate d t = none) ∧
    (∀ d t : String,
      (stripChars d.data ++ safe_zfill (stripChars t.data)).all Char.isDigit = false →
      formatdate d t = none) ∧
    formatdate "2022031a" "1430" = none ∧
    formatdate "20220315" "14h0" = none ∧
    formatdate "20221315" "1200" = none ∧
    (∀ (r : RawRecord) (l : List RawRecord), formatdate r.UTC_DATE r.UTC_TIME = none →
      process_dataframe (r :: l) = process_dataframe l) ∧
    (∀ (r : RawRecord) (l : List RawRecord), formatdate r.LST_DATE r.LST_TIME = none →
      process_dataframe (r :: l) = process_dataframe l) := by
  refine ⟨by decide, by decide, ?_, ?_, ?_, by decide, by decide, by decide, ?_, ?_⟩
  · intro t ht hd
    unfold safe_zfill
    rw [if_neg]
    push_neg
    refine ⟨ht, ?_, by simp [hd]⟩
    intro hn
    subst hn
    exact absurd hd (by decide)
  · intro d t h
    simp only [formatdate]
    rcases h with h | h
    · rw [if_pos (Or.inl h)]
    · have hz : safe_zfill (stripChars t.data) = [] := by rw [h]; rfl
      rw [if_pos (Or.inr (Or.inr (Or.inl hz)))]
  · intro d t h
    simp only [formatdate]
    split
    · rfl
    · simp only [parseYYYYMMDDHHMM]
      rw [if_neg]
      intro hc
      rw [h] at hc
      exact Bool.false_ne_true hc.2
  · intro r l h
    have hr : process_row r = none := by
      cases hl : formatdate r.LST_DATE r.LST_TIME <;> simp [process_row, h, hl]
    simp [process_dataframe, List.filterMap_cons, hr]
  · intro r l h
    have hr : process_row r = none := by
      cases hu : formatdate r.UTC_DATE r.UTC_TIME <;> simp [process_row, h, hu]
    simp [process_dataframe, List.filterMap_cons, hr]

/-- Witness for C4: the zero-padding clause at the concrete time
`"930"`, and the record-dropping clause at a record whose UTC date field
is the literal `'nan'`. -/
theorem C4_timestamp_derivation_witness :
    safe_zfill ['9', '3', '0'] = zfillChars 4 ['9', '3', '0'] ∧
    process_dataframe [{ sample1 with UTC_DATE := "nan" }] = process_dataframe [] :=
  ⟨C4_timestamp_derivation.2.2.1 ['9', '3', '0'] (by decide) (by decide),
   C4_timestamp_derivation.2.2.2.2.2.2.2.2.1 { sample1 with UTC_DATE := "nan" } []
     (by decide)⟩

/-- C10: before parsing, date and time are stripped of surrounding
whitespace — the derivation depends only on the stripped text, so
`(" 20220315 ", " 1430 ")` still derives 2022-03-15T14:30 — and a field
whose stripped text is empty or the literal `"nan"` makes the pair
unparseable (`none`). -/
theorem C10_whitespace_and_nan :
    formatdate " 20220315 " " 1430 " = some ⟨2022, 3, 15, 14, 30⟩ ∧
    (∀ d d' t t' : String, stripChars d.data = stripChars d'.data →
      stripChars t.data = stripChars t'.data → formatdate d t = formatdate d' t') ∧
    (∀ d t : String, stripChars d.data = "nan".data → formatdate d t = none) ∧
    (∀ d t : String, stripChars t.data = "nan".data → formatdate d t = none) ∧
    (∀ d t : String, stripChars d.data = [] → formatdate d t = none) ∧
    (∀ d t : String, stripChars t.data = [] → formatdate d t = none) := by
  refine ⟨by decide, ?_, ?_, ?_, ?_, ?_⟩
  · intro d d' t t' h1 h2
    simp only [formatdate]
    rw [h1, h2]
  · intro d t h
    simp only [formatdate]
    rw [if_pos (Or.inr (Or.inl h))]
  · intro d t h
    have hz : safe_zfill (stripChars t.data) = "nan".data := by rw [h]; decide
    simp only [formatdate]
    rw [if_pos (Or.inr (Or.inr (Or.inr hz)))]
  · intro d t h
    simp only [formatdate]
    rw [if_pos (Or.inl h)]
  · intro d t h
    have hz : safe_zfill (stripChars t.data) = [] := by rw [h]; rfl
    simp only [formatdate]
    rw [if_pos (Or.inr (Or.inr (Or.inl hz)))]

/-- Witness for C10: strip-congruence applied at the padded pair, and the
`'nan'` clause at a concrete pair. -/
theorem C10_whitespace_and_nan_witness :
    formatdate " 20220315 " " 1430 " = formatdate "20220315" "1430" ∧
    formatdate "nan" "1430" = none :=
  ⟨C10_whitespace_and_nan.2.1 " 20220315 " "20220315" " 1430 " "1430" (by decide) (by decide),
   C10_whitespace_and_nan.2.2.1 "nan" "1430" (by decide)⟩

end SoilData

namespace SoilData

/-- C5: normalization maps each sentinel value in {-99.0, -9999.0, -9999}
(by exact numeric equality after coercion) to missing, maps every value
that fails numeric coercion to missing, and passes every other numeric
value through unchanged (before any unit conversion). -/
theorem C5_sentinel_normalization :
    remove_invalid_values (RawValue.num (-99)) = none ∧
    remove_invalid_values (RawValue.num (-9999)) = none ∧
    remove_invalid_values (RawValue.text "-99.00") = none ∧
    remove_invalid_values (RawValue.text "-9999.0") = none ∧
    remove_invalid_values (RawValue.text "abc") = none ∧
    (∀ v : RawValue, to_numeric v = none → remove_invalid_values v = none) ∧
    (∀ q : ℚ, q ∉ invalid_values → remove_invalid_values (RawValue.num q) = some q) ∧
    (∀ (s : String) (q : ℚ), parseDecimal s = some q → q ∉ invalid_values →
      remove_invalid_values (RawValue.text s) = some q) := by
  refine ⟨by decide, by decide, by decide, by decide, by decide, ?_, ?_, ?_⟩
  · intro v h
    simp [remove_invalid_values, h]
  · intro q hq
    simp [remove_invalid_values, to_numeric, hq]
  · intro s q h hq
    simp [remove_invalid_values, to_numeric, h, hq]

/-- Witness for C5: the coercion-failure clause at the string `"xyz"` and
the pass-through clause at the plain value 5. -/
theorem C5_sentinel_normalization_witness :
    remove_invalid_values (RawValue.text "xyz") = none ∧
    remove_invalid_values (RawValue.num 5) = some 5 :=
  ⟨C5_sentinel_normalization.2.2.2.2.2.1 (RawValue.text "xyz") (by decide),
   C5_sentinel_normalization.2.2.2.2.2.2.1 5 (by decide)⟩

/-- C6: Celsius→Fahrenheit computes exactly `F = C * 9/5 + 32`, with
0 ↦ 32, 100 ↦ 212 and −40 ↦ −40; in `process_row` it is applied only to
the designated temperature columns and only after sentinel removal
(`P_CALC` and `RH_HR_AVG` receive sentinel removal alone), and a missing
value stays missing through the conversion. -/
theorem C6_temperature_conversion :
    (∀ c : ℚ, celsius_to_fahrenheit c = c * 9 / 5 + 32) ∧
    celsius_to_fahrenheit 0 = 32 ∧
    celsius_to_fahrenheit 100 = 212 ∧
    celsius_to_fahrenheit (-40) = -40 ∧
    (∀ v : RawValue, remove_invalid_values v = none →
      (remove_invalid_values v).map celsius_to_fahrenheit = none) ∧
    (∀ (r : RawRecord) (n : NormalizedRecord), process_row r = some n →
      n.SOIL_TEMP_5 = (remove_invalid_values r.SOIL_TEMP_5).map celsius_to_fahrenheit ∧
      n.SOIL_TEMP_10 = (remove_invalid_values r.SOIL_TEMP_10).map celsius_to_fahrenheit ∧
      n.SOIL_TEMP_20 = (remove_invalid_values r.SOIL_TEMP_20).map celsius_to_fahrenheit ∧
      n.SOIL_TEMP_50 = (remove_invalid_values r.SOIL_TEMP_50).map celsius_to_fahrenheit ∧
      n.SOIL_TEMP_100 = (remove_invalid_values r.SOIL_TEMP_100).map celsius_to_fahrenheit ∧
      n.T_CALC = (remove_invalid_values r.T_CALC).map celsius_to_fahrenheit ∧
      n.T_HR_AVG = (remove_invalid_values r.T_HR_AVG).map celsius_to_fahrenheit ∧
      n.P_CALC = remove_invalid_values r.P_CALC ∧
      n.RH_HR_AVG = remove_invalid_values r.RH_HR_AVG) := by
  refine ⟨fun c => rfl, by norm_num [celsius_to_fahrenheit],
    by norm_num [celsius_to_fahrenheit], by norm_num [celsius_to_fahrenheit], ?_, ?_⟩
  · intro v h
    rw [h]
    rfl
  · intro r n h
    unfold process_row at h
    split at h
    · injection h with h'
      subst h'
      exact ⟨rfl, rfl, rfl, rfl, rfl, rfl, rfl, rfl, rfl⟩
    · exact absurd h (by simp)

/-- Witness for C6: missing propagates through the conversion at the
sentinel −99, and the `P_CALC` column of the concrete record `sample1`
receives no conversion. -/
theorem C6_temperature_conversion_witness :
    (remove_invalid_values (RawValue.num (-99))).map celsius_to_fahrenheit = none ∧
    sample1_norm.P_CALC = remove_invalid_values sample1.P_CALC :=
  ⟨C6_temperature_conversion.2.2.2.2.1 (RawValue.num (-99)) (by decide),
   (C6_temperature_conversion.2.2.2.2.2 sample1 sample1_norm (by decide)).2.2.2.2.2.2.2.1⟩

/-- C7: a raw record whose two timestamp pairs both parse is always
emitted into the batch — only timestamp validity gates emission, even
when every measurement field normalizes to missing. -/
theorem C7_emission_gated_only_by_timestamps (r : RawRecord) (u l : Timestamp)
    (hu : formatdate r.UTC_DATE r.UTC_TIME = some u)
    (hl : formatdate r.LST_DATE r.LST_TIME = some l) :
    ∃ n : NormalizedRecord, process_row r = some n ∧ process_dataframe [r] = [n] ∧
      n.UTC_DATETIME = u ∧ n.LOCAL_DATETIME = l := by
  refine ⟨{ UTC_DATETIME := u
            LOCAL_DATETIME := l
            SOIL_TEMP_5 := (remove_invalid_values r.SOIL_TEMP_5).map celsius_to_fahrenheit
            SOIL_TEMP_10 := (remove_invalid_values r.SOIL_TEMP_10).map celsius_to_fahrenheit
            SOIL_TEMP_20 := (remove_invalid_values r.SOIL_TEMP_20).map celsius_to_fahrenheit
            SOIL_TEMP_50 := (remove_invalid_values r.SOIL_TEMP_50).map celsius_to_fahrenheit
            SOIL_TEMP_100 := (remove_invalid_values r.SOIL_TEMP_100).map celsius_to_fahrenheit
            T_CALC := (remove_invalid_values r.T_CALC).map celsius_to_fahrenheit
            T_HR_AVG := (remove_invalid_values r.T_HR_AVG).map celsius_to_fahrenheit
            P_CALC := remove_invalid_values r.P_CALC
            RH_HR_AVG := remove_invalid_values r.RH_HR_AVG }, ?_, ?_, rfl, rfl⟩
  · simp [process_row, hu, hl]
  · simp [process_dataframe, List.filterMap_cons, process_row, hu, hl]

/-- Witness for C7: `sample1` has every measurement equal to the `-9999`
sentinel, hence every normalized measurement missing, yet it is emitted. -/
theorem C7_emission_witness :
    ∃ n : NormalizedRecord, process_row sample1 = some n ∧
      process_dataframe [sample1] = [n] ∧
      n.UTC_DATETIME = ⟨2022, 3, 15, 14, 30⟩ ∧ n.LOCAL_DATETIME = ⟨2022, 3, 15, 9, 30⟩ :=
  C7_emission_gated_only_by_timestamps sample1 ⟨2022, 3, 15, 14, 30⟩ ⟨2022, 3, 15, 9, 30⟩
    (by decide) (by decide)

end SoilData

namespace SoilData

/-- C1 counterexample: for the concrete record `sample1` (UTC pair
`("20220315","1430")`, local pair `("20220315","0930")`), the value
placed in the sink's `time` primary-key column is the *local* timestamp
2022-03-15T09:30, not the derived UTC timestamp 2022-03-15T14:30; and
two records sharing one UTC timestamp but differing in local time
(`sample1`, `sample2`) produce two persisted rows, so the sink does not
hold at most one row per unique `utc_timestamp`. -/
theorem C1_counterexample :
    (process_dataframe [sample1]).map (fun n => (to_sink_tuple n).time) =
      [⟨2022, 3, 15, 9, 30⟩] ∧
    (process_dataframe [sample1]).map (fun n => n.UTC_DATETIME) =
      [⟨2022, 3, 15, 14, 30⟩] ∧
    (⟨2022, 3, 15, 9, 30⟩ : Timestamp) ≠ ⟨2022, 3, 15, 14, 30⟩ ∧
    (process_dataframe [sample1, sample2]).map (fun n => n.UTC_DATETIME) =
      [⟨2022, 3, 15, 14, 30⟩, ⟨2022, 3, 15, 14, 30⟩] ∧
    (applyBatch [] ((process_dataframe [sample1, sample2]).map to_sink_tuple)).length = 2 := by
  refine ⟨by decide, by decide, by decide, by decide, by decide⟩

/-- C1 as amended: the sink row's primary-key column `time` holds the
record's derived *local* timestamp (`LOCAL_DATETIME` is the first entry
of `data_columns`, paired with the `time` column of the insert); the
derived UTC timestamp is only the dataframe index and is not persisted
(no `SinkRow` column carries it); the conflict-do-nothing upsert keyed on
`time` keeps at most one row per unique local timestamp. -/
theorem C1_amended_local_time_key :
    (∀ n : NormalizedRecord, (to_sink_tuple n).time = n.LOCAL_DATETIME) ∧
    (∀ (s : Sink) (b : List SinkRow),
      (sinkKeys s).Nodup → (sinkKeys (applyBatch s b)).Nodup) :=
  ⟨fun _ => rfl, fun _ b h => nodup_sinkKeys_applyBatch b h⟩

/-- Witness for the amended C1 at concrete data. -/
theorem C1_amended_local_time_key_witness :
    (to_sink_tuple sample1_norm).time = sample1_norm.LOCAL_DATETIME ∧
    (sinkKeys (applyBatch [] [row0])).Nodup :=
  ⟨C1_amended_local_time_key.1 sample1_norm,
   C1_amended_local_time_key.2 [] [row0] (by decide)⟩

/-- C8: loading the same batch twice leaves the sink unchanged relative
to loading it once (the second load is a no-op on every already-present
key); an existing row is never overwritten (`insertRow` on a present key
is the identity, and `insertRow` is total, so a duplicate key is never a
failure); and after a load the sink holds exactly one row per timestamp
key of the batch. -/
theorem C8_idempotent_upsert (s : Sink) (b : List SinkRow)
    (h : (sinkKeys s).Nodup) :
    applyBatch (applyBatch s b) b = applyBatch s b ∧
    (∀ r : SinkRow, r.time ∈ sinkKeys s → insertRow s r = s) ∧
    (sinkKeys (applyBatch s b)).Nodup ∧
    (∀ r ∈ b, (sinkKeys (applyBatch s b)).count r.time = 1) := by
  refine ⟨applyBatch_applyBatch s b, fun r hr => insertRow_of_mem hr,
    nodup_sinkKeys_applyBatch b h, ?_⟩
  intro r hr
  exact List.count_eq_one_of_mem (nodup_sinkKeys_applyBatch b h)
    (batch_mem_sinkKeys_applyBatch s hr)

/-- Witness for C8 at a concrete duplicated batch over the empty sink. -/
theorem C8_idempotent_upsert_witness :
    applyBatch (applyBatch [] [row0, row0]) [row0, row0] = applyBatch [] [row0, row0] ∧
    (sinkKeys (applyBatch [] [row0, row0])).Nodup :=
  ⟨(C8_idempotent_upsert [] [row0, row0] (by decide)).1,
   (C8_idempotent_upsert [] [row0, row0] (by decide)).2.2.1⟩

/-- C9: the batch loop attempts every batch: batch `j` (0-based) is
logged with batch number `j+1` and its own size, marked committed or
rolled back according to the write outcome; the final sink is the fold
that applies exactly the successful batches in order — a failed batch
contributes nothing (rolled back in its entirety) and does not stop later
batches, and each successful batch's effect is applied at its own
position (no transaction spans batches). -/
theorem C9_batch_failure_isolation (oracle : Nat → Bool) (s : Sink)
    (rows : List SinkRow) (bs : Nat) :
    (bulk_insert oracle s rows bs).2 =
      (List.enumFrom 0 (chunks bs rows)).map
        (fun p => ⟨p.1 + 1, p.2.length, oracle p.1⟩) ∧
    (bulk_insert oracle s rows bs).1 =
      (List.enumFrom 0 (chunks bs rows)).foldl
        (fun t p => if oracle p.1 then applyBatch t p.2 else t) s :=
  bulk_insert_batches_spec oracle (chunks bs rows) s 0

end SoilData

namespace SoilData

/-- C2 counterexample: when the first file's read/processing raises, the
orchestrator loop (which has no per-file `try`/`except`) propagates that
error to the caller; the remaining file is not reflected in any summary
and no aggregate summary is produced. -/
theorem C2_counterexample :
    processdata_files [Except.error "file unreadable", Except.ok 5] =
      Except.error "file unreadable" := rfl

/-- C2 as amended: a failure reading or processing one file propagates
out of the orchestrator and aborts the run — the first error is returned
to the caller and no summary is emitted; only when every file processes
without error does the run terminate normally, reporting the aggregate
summary (files seen, total records). -/
theorem C2_amended_error_propagates :
    (∀ (pre post : List (Except String Nat)) (e : String),
      (∀ x ∈ pre, ∃ n, x = Except.ok n) →
      processdata_files (pre ++ Except.error e :: post) = Except.error e) ∧
    (∀ files : List (Except String Nat),
      (∀ x ∈ files, ∃ n, x = Except.ok n) →
      processdata_files files = Except.ok (files.length, (files.map okValue).sum)) := by
  constructor
  · intro pre post e h
    unfold processdata_files
    rw [processdata_go_error e post pre h 0]
    rfl
  · intro files h
    unfold processdata_files
    rw [processdata_go_ok files h 0]
    simp [Except.map]

/-- Witness for the amended C2: one good file followed by a failing file
aborts with that error; two good files produce the summary `(2, 7)`. -/
theorem C2_amended_error_propagates_witness :
    processdata_files [Except.ok 3, Except.error "io error"] = Except.error "io error" ∧
    processdata_files [Except.ok 3, Except.ok 4] = Except.ok (2, 7) :=
  ⟨C2_amended_error_propagates.1 [Except.ok 3] [] "io error"
      (by intro x hx; rw [List.mem_singleton] at hx; exact ⟨3, hx⟩),
   C2_amended_error_propagates.2 [Except.ok 3, Except.ok 4]
      (by
        intro x hx
        rcases List.mem_cons.mp hx with rfl | hx
        · exact ⟨3, rfl⟩
        · rw [List.mem_singleton] at hx
          exact ⟨4, hx⟩)⟩

/-- C3 counterexample: one file with one normalized record, whose only
batch write fails: the run reports `total_records = 1` while the sink
received zero rows, so the reported aggregate is not the number of
records actually inserted. -/
theorem C3_counterexample :
    processdata_run alwaysFail 1000 [] [[sample1]] 0 = ([], 1) := by
  have hdf : process_dataframe [sample1] = [sample1_norm] := by decide
  have hch : chunks 1000 [to_sink_tuple sample1_norm] = [[to_sink_tuple sample1_norm]] := by
    rw [chunks]
    simp [chunks]
  simp [processdata_run, hdf, bulk_insert, hch, bulk_insert_batches, alwaysFail]

/-- C3 as amended: the aggregate reported at the end of a run equals the
number of normalized records *submitted* to the loader (the sum of
per-file normalized row counts, `total_records += len(df)`), independent
of the write outcome; the rows actually added to the sink never exceed
that count and can fall short of it (batch failures, duplicate-key
skips). -/
theorem C3_amended_reported_count (oracle : Nat → Bool) (bs : Nat) (s : Sink)
    (dfs : List (List RawRecord)) (t : Nat) :
    (processdata_run oracle bs s dfs t).2 =
      t + (dfs.map (fun df => (process_dataframe df).length)).sum ∧
    (processdata_run oracle bs s dfs t).1.length ≤
      s.length + (dfs.map (fun df => (process_dataframe df).length)).sum :=
  ⟨processdata_run_total oracle bs dfs s t, processdata_run_sink_le oracle bs dfs s t⟩

end SoilData
